import Mathlib

/-!
Verification of the mod-manager reconciliation engine (src/mod-manager.py).

The filesystem world of the program consists of the immediate children of two
directories: the mods source directory and the game (destination) directory.
We embed that world shallowly:

  * a source-directory child is a `SrcEntry` — a name together with what the
    OS calls report for it (`is_file()` true, `is_dir()` true, or a dangling
    symlink for which both are false and `exists()` is false);
  * a destination-directory child is a `DestEntry` — a real file, a real
    directory (with an emptiness flag, which is all `os.rmdir` observes), or a
    symlink carrying whether its target exists and is a directory
    (`exists()` follows symlinks, `is_symlink()` does not);
  * `FS` packs the two listings plus whether the source directory exists.

Python string operations used by the program (`str.lower`, `str.strip`,
`str.split`, `Path.suffix`, tuple sort keys) are embedded as structurally
recursive functions over `String.data : List Char`, and `sorted(...)` as the
stable `List.insertionSort` from Mathlib, matching CPython semantics on the
ASCII inputs the program manipulates.
-/

namespace ModMgr

/-- What the OS reports for a child of the source directory. -/
inductive SrcKind
  | file
  | dir
  | dangling
deriving DecidableEq, Repr

/-- One immediate child of the mods source directory. -/
structure SrcEntry where
  name : String
  kind : SrcKind
deriving DecidableEq, Repr

/-- One immediate child of the game (destination) directory.
`link targetExists targetIsDir` covers both healthy and dangling links. -/
inductive DestEntry
  | realFile
  | realDir (isEmpty : Bool)
  | link (targetExists : Bool) (targetIsDir : Bool)
deriving DecidableEq, Repr

/-- The filesystem state the program observes and mutates. -/
structure FS where
  srcDirExists : Bool
  src : List SrcEntry
  dest : List (String × DestEntry)
deriving DecidableEq, Repr

/-- The configuration record (config.json): two directory paths and the
comma-separated extension filter string. -/
structure Config where
  mods_source_dir : String
  game_mods_dir : String
  mod_extensions : String
deriving DecidableEq, Repr

/-- presets.json: a mapping preset name to ordered member-name list,
with Python-dict (insertion-order, overwrite-in-place) semantics. -/
abbrev PresetStore := List (String × List String)

/-! ### Python string primitives, over `List Char` -/

/-- ASCII lowering of one character, as CPython `str.lower` acts on ASCII. -/
def lowerC (c : Char) : Char :=
  if 65 ≤ c.toNat ∧ c.toNat ≤ 90 then Char.ofNat (c.toNat + 32) else c

/-- Models `str.lower()`. -/
def pyLower (s : String) : String := String.mk (s.data.map lowerC)

/-- Whitespace for `str.strip()` (ASCII fragment of Python whitespace). -/
def isWS (c : Char) : Bool := c.toNat = 32 ∨ (9 ≤ c.toNat ∧ c.toNat ≤ 13)

/-- Models `str.strip()`. -/
def pyStrip (s : String) : String :=
  String.mk (((s.data.dropWhile isWS).reverse.dropWhile isWS).reverse)

/-- Models `str.split(sep)` for a one-character separator: CPython yields `[""]`
on the empty string and keeps empty fields. -/
def splitC (sep : Char) : List Char → List (List Char)
  | [] => [[]]
  | c :: rest =>
    match splitC sep rest with
    | [] => [[c]]
    | g :: gs => if c = sep then [] :: g :: gs else (c :: g) :: gs

/-- Models `str.split(",")`. -/
def pySplitComma (s : String) : List String :=
  (splitC ',' s.data).map String.mk

/-- Index of the last dot in a name, if any (CPython `str.rfind`). -/
def lastDotIdx : List Char → Option Nat
  | [] => none
  | c :: rest =>
    match lastDotIdx rest with
    | some i => some (i + 1)
    | none => if c = '.' then some (0 : Nat) else none

/-- Models `PurePath.suffix`: `name[i:]` for the last dot index `i` when
`0 < i < len(name) - 1`, else the empty string. -/
def pySuffix (s : String) : String :=
  match lastDotIdx s.data with
  | none => ""
  | some i => if 0 < i ∧ i + 1 < s.data.length then String.mk (s.data.drop i) else ""

/-- Models `str.startswith(".")`. -/
def startsWithDot (s : String) : Bool :=
  match s.data with
  | '.' :: _ => true
  | _ => false

/-- Code-point lexicographic `≤` on strings, as CPython compares `str`
(and hence the string component of a sort key). -/
def charsLe : List Char → List Char → Bool
  | [], _ => true
  | _ :: _, [] => false
  | a :: as, b :: bs =>
    if a.toNat < b.toNat then true
    else if b.toNat < a.toNat then false
    else charsLe as bs

/-! ### parse_extensions (source lines 63-68) -/

/-- Models `parse_extensions`: returns `(show_all, exts)`.  Empty/blank filter
string means show all; otherwise each comma field that is nonblank is
lowercased, stripped and given a leading dot unless it already starts
with one (the `startswith` test runs on the unstripped field, as in the
source). -/
def parse_extensions (raw : String) : Bool × List String :=
  let exts_raw := pyStrip raw
  if exts_raw = "" then (true, [])
  else
    (false, (pySplitComma exts_raw).filterMap (fun e =>
      if pyStrip e = "" then none
      else if startsWithDot e then some (pyStrip (pyLower e))
      else some ("." ++ pyStrip (pyLower e))))

/-! ### Filesystem queries -/

/-- The entry (if any) at `destDir/name`. -/
def destLookup (fs : FS) (name : String) : Option DestEntry :=
  (fs.dest.find? (fun kv => kv.1 = name)).map (fun kv => kv.2)

/-- Models `Path.exists()` at `destDir/name` (follows symlinks). -/
def destExists (fs : FS) (name : String) : Bool :=
  match destLookup fs name with
  | none => false
  | some DestEntry.realFile => true
  | some (DestEntry.realDir _) => true
  | some (DestEntry.link t _) => t

/-- Models `Path.is_symlink()` at `destDir/name`. -/
def destIsSymlink (fs : FS) (name : String) : Bool :=
  match destLookup fs name with
  | some (DestEntry.link _ _) => true
  | _ => false

/-- Models `Path.is_dir()` at `destDir/name` (follows symlinks). -/
def destIsDir (fs : FS) (name : String) : Bool :=
  match destLookup fs name with
  | some (DestEntry.realDir _) => true
  | some (DestEntry.link t d) => t && d
  | _ => false

/-- First source entry of the given name. -/
def srcFind (fs : FS) (name : String) : Option SrcEntry :=
  fs.src.find? (fun e => e.name = name)

/-- Models `Path.exists()` at `srcDir/name` (false for a dangling link). -/
def srcPathExists (fs : FS) (name : String) : Bool :=
  fs.srcDirExists &&
    match srcFind fs name with
    | some e => decide (e.kind ≠ SrcKind.dangling)
    | none => false

/-- Models `Path.is_dir()` at `srcDir/name`. -/
def srcIsDir (fs : FS) (name : String) : Bool :=
  match srcFind fs name with
  | some e => decide (e.kind = SrcKind.dir)
  | none => false

/-- The path string `srcDir/name` (for diagnostic messages). -/
def srcPathStr (cfg : Config) (name : String) : String :=
  cfg.mods_source_dir ++ "/" ++ name

/-- The path string `destDir/name` (for diagnostic messages). -/
def destPathStr (cfg : Config) (name : String) : String :=
  cfg.game_mods_dir ++ "/" ++ name

/-- Remove the single entry at `destDir/name` from the listing. -/
def destRemove (fs : FS) (name : String) : FS :=
  { fs with dest := fs.dest.eraseP (fun kv => kv.1 = name) }

/-! ### PathLinker: mklink (73-96) and unlink_path (98-111) -/

/-- Models `mklink(src, dest)` for `src = srcDir/name`, `dest = destDir/name`:
fail if the destination exists or is a (possibly dangling) link; fail if
the source does not exist; otherwise create the link (the platform branch
collapses: both `os.symlink` and the Windows `mklink` tool leave one new
link entry at the destination, pointing at the — existing — source). -/
def mklink (cfg : Config) (fs : FS) (name : String) : (Bool × String) × FS :=
  if destExists fs name || destIsSymlink fs name then
    ((false, "Target already exists: " ++ destPathStr cfg name), fs)
  else if !srcPathExists fs name then
    ((false, "Source not found: " ++ srcPathStr cfg name), fs)
  else
    ((true, "OK"), { fs with dest := fs.dest ++ [(name, DestEntry.link true (srcIsDir fs name))] })

/-- Models `unlink_path(dest)` for `dest = destDir/name`: nothing there and not a
dangling link — already removed; a real (non-link) directory — `os.rmdir`,
which succeeds only on an empty directory and otherwise changes nothing;
anything else (file, or link of either kind) — `Path.unlink()`. -/
def unlink_path (fs : FS) (name : String) : (Bool × String) × FS :=
  if !destExists fs name && !destIsSymlink fs name then
    ((false, "Already removed"), fs)
  else if destIsDir fs name && !destIsSymlink fs name then
    match destLookup fs name with
    | some (DestEntry.realDir true) => ((true, "OK"), destRemove fs name)
    | _ => ((false, "Not a link or not empty"), fs)
  else
    ((true, "OK"), destRemove fs name)

/-! ### ModCatalog: discover_mods (113-132) and the list filters (134-140) -/

/-- One discovered mod (the `ModItem` dataclass): paths are recorded as
strings, state as the `installed` flag computed at discovery time. -/
structure ModItem where
  name : String
  src : String
  dest : String
  is_dir : Bool
  installed : Bool
deriving DecidableEq, Repr

/-- Models `x.is_file()` of a source entry. -/
def isFileB (e : SrcEntry) : Bool := decide (e.kind = SrcKind.file)

/-- The sort key comparison of `sorted(src_dir.iterdir(), key=lambda x:
(x.is_file(), x.name.lower()))`: ascending on the `(Bool, str)` tuple, so
directories (`is_file() = False`) come before files. -/
def srcSortLe (a b : SrcEntry) : Bool :=
  if isFileB a = isFileB b then charsLe (pyLower a.name).data (pyLower b.name).data
  else isFileB b

/-- The body of the `discover_mods` loop: a file passes the extension
filter (or `show_all`), a directory always passes, anything else
(e.g. a dangling link, for which `is_file()` and `is_dir()` are both
false) is skipped; `installed = dest.exists() or dest.is_symlink()`. -/
def includeEntry (cfg : Config) (fs : FS) (showAll : Bool) (exts : List String)
    (e : SrcEntry) : Option ModItem :=
  match e.kind with
  | SrcKind.file =>
    if showAll || exts.contains (pyLower (pySuffix e.name)) then
      some ⟨e.name, srcPathStr cfg e.name, destPathStr cfg e.name, false,
        destExists fs e.name || destIsSymlink fs e.name⟩
    else none
  | SrcKind.dir =>
    some ⟨e.name, srcPathStr cfg e.name, destPathStr cfg e.name, true,
      destExists fs e.name || destIsSymlink fs e.name⟩
  | SrcKind.dangling => none

/-- Models `discover_mods`: empty when the source directory is missing; otherwise
the sorted, filtered listing of its immediate children. -/
def discover_mods (cfg : Config) (fs : FS) : List ModItem :=
  if !fs.srcDirExists then []
  else
    let pe := parse_extensions cfg.mod_extensions
    (fs.src.insertionSort (fun a b => srcSortLe a b = true)).filterMap
      (includeEntry cfg fs pe.1 pe.2)

/-- Models `list_installed_mods`. -/
def list_installed_mods (cfg : Config) (fs : FS) : List ModItem :=
  (discover_mods cfg fs).filter (fun m => m.installed)

/-- Models `list_broken_links`: installed entries whose source path no longer
exists (re-checked against the same filesystem snapshot). -/
def list_broken_links (cfg : Config) (fs : FS) : List ModItem :=
  (discover_mods cfg fs).filter (fun m => m.installed && !srcPathExists fs m.name)

/-- The derived per-entry state of the data model: Installed iff something
(including a dangling link) sits at the destination path, Broken iff
additionally the source path is gone, NotInstalled otherwise. -/
inductive ModState
  | notInstalled
  | installed
  | broken
deriving DecidableEq, Repr

/-- Derive a discovered entry's state from its `installed` flag and the
current existence of its source path. -/
def modState (fs : FS) (m : ModItem) : ModState :=
  if m.installed then
    (if srcPathExists fs m.name then ModState.installed else ModState.broken)
  else ModState.notInstalled

/-! ### PresetStore (150-170) -/

/-- Models `presets.get(name, [])`. -/
def presetsGet (ps : PresetStore) (name : String) : List String :=
  match ps.find? (fun kv => kv.1 = name) with
  | some kv => kv.2
  | none => []

/-- Python dict assignment `presets[name] = v`: overwrite in place if the
key is present, else append. -/
def presetsSet (ps : PresetStore) (name : String) (v : List String) : PresetStore :=
  if ps.any (fun kv => kv.1 = name) then
    ps.map (fun kv => if kv.1 = name then (name, v) else kv)
  else ps ++ [(name, v)]

/-- Models `save_preset_from_installed`: snapshot the currently installed names;
refuse when there are none.  (The success message carries the preset name;
the source decorates it further with the mod count.) -/
def save_preset_from_installed (cfg : Config) (fs : FS) (ps : PresetStore)
    (name : String) : (Bool × String) × PresetStore :=
  let installed := list_installed_mods cfg fs
  if installed.isEmpty then ((false, "No installed mods to save"), ps)
  else ((true, "Preset " ++ name ++ " saved"), presetsSet ps name (installed.map (fun m => m.name)))

/-! ### BatchReconciler: apply_preset (172-192), deactivate_preset (194-211) -/

/-- Python dict built by `{m.name: m for m in discover_mods(cfg)}`:
later entries overwrite earlier ones. -/
def dictGet (items : List ModItem) (nm : String) : Option ModItem :=
  items.foldl (fun acc m => if m.name = nm then some m else acc) none

/-- The running state of one batch: the mutating filesystem plus the
`ok`/`fail` counters and the message log. -/
structure BatchSt where
  fs : FS
  ok : Nat
  fail : Nat
  msgs : List String
deriving DecidableEq, Repr

/-- One iteration of the `apply_preset` loop: name missing from the
catalog snapshot — logged skip, uncounted; already installed — silent
skip; otherwise `mklink` runs against the current filesystem and its
outcome is logged and counted. -/
def applyStep (cfg : Config) (catalog : List ModItem) (st : BatchSt) (nm : String) : BatchSt :=
  match dictGet catalog nm with
  | none => { st with msgs := st.msgs ++ ["Skipped: " ++ nm ++ " (not in source)"] }
  | some m =>
    if m.installed then st
    else
      let r := mklink cfg st.fs m.name
      { fs := r.2
        ok := if r.1.1 then st.ok + 1 else st.ok
        fail := if r.1.1 then st.fail else st.fail + 1
        msgs := st.msgs ++ [nm ++ ": " ++ (if r.1.1 then "OK" else "ERR") ++ " (" ++ r.1.2 ++ ")"] }

/-- Models `apply_preset`: one catalog snapshot taken before the loop, then the
member names processed in order. -/
def apply_preset (cfg : Config) (fs : FS) (ps : PresetStore) (name : String) : BatchSt :=
  (presetsGet ps name).foldl (applyStep cfg (discover_mods cfg fs)) ⟨fs, 0, 0, []⟩

/-- One iteration of the `deactivate_preset` loop: missing or not
installed — silent skip; otherwise `unlink_path`, logged and counted. -/
def deactStep (_cfg : Config) (catalog : List ModItem) (st : BatchSt) (nm : String) : BatchSt :=
  match dictGet catalog nm with
  | none => st
  | some m =>
    if !m.installed then st
    else
      let r := unlink_path st.fs m.name
      { fs := r.2
        ok := if r.1.1 then st.ok + 1 else st.ok
        fail := if r.1.1 then st.fail else st.fail + 1
        msgs := st.msgs ++ [nm ++ ": " ++ (if r.1.1 then "OK" else "ERR") ++ " (" ++ r.1.2 ++ ")"] }

/-- Models `deactivate_preset`. -/
def deactivate_preset (cfg : Config) (fs : FS) (ps : PresetStore) (name : String) : BatchSt :=
  (presetsGet ps name).foldl (deactStep cfg (discover_mods cfg fs)) ⟨fs, 0, 0, []⟩

/-- The `installed_set` of `menu_presets` (line 452): names of the installed
entries of a fresh catalog. -/
def installedNames (cfg : Config) (fs : FS) : List String :=
  ((discover_mods cfg fs).filter (fun m => m.installed)).map (fun m => m.name)

/-- The `all_on` test of `menu_presets` (lines 457, 502):
`bool(mods) and all(nm in installed_set for nm in mods)`. -/
def presetAllOn (cfg : Config) (fs : FS) (ps : PresetStore) (name : String) : Bool :=
  let mods := presetsGet ps name
  !mods.isEmpty && mods.all (fun nm => (installedNames cfg fs).contains nm)

/-- The preset-toggle decision of `menu_presets` (451-459, 497-510): revert
everything when `all_on`, else apply everything.  Returns the branch taken
plus its batch result. -/
def togglePreset (cfg : Config) (fs : FS) (ps : PresetStore) (name : String) :
    Bool × BatchSt :=
  if presetAllOn cfg fs ps name then (true, deactivate_preset cfg fs ps name)
  else (false, apply_preset cfg fs ps name)

/-! ### Fixtures for witnesses and counterexamples -/

/-- Filter `.esp`, for the C5 examples. -/
def espCfg : Config := ⟨"/s", "/d", ".esp"⟩

/-- Directory `foo.bar` plus files `x.esp`, `x.ESP`, `x.txt`; empty
destination. -/
def espFS : FS :=
  ⟨true, [⟨"foo.bar", SrcKind.dir⟩, ⟨"x.esp", SrcKind.file⟩,
    ⟨"x.ESP", SrcKind.file⟩, ⟨"x.txt", SrcKind.file⟩], []⟩

/-- Section 8 scenario configuration: filter string "esp". -/
def scenCfg : Config := ⟨"/src", "/dst", "esp"⟩

/-- Section 8 scenario source: directory `ModA` and file `modb.esp`, empty
destination. -/
def scenFS : FS := ⟨true, [⟨"ModA", SrcKind.dir⟩, ⟨"modb.esp", SrcKind.file⟩], []⟩

/-- A configuration with no extension filter. -/
def plainCfg : Config := ⟨"/s", "/d", ""⟩

/-- One available file mod `a`, not installed. -/
def oneModFS : FS := ⟨true, [⟨"a", SrcKind.file⟩], []⟩

/-- One available file mod `a`, installed as a healthy link. -/
def oneModInstalledFS : FS :=
  ⟨true, [⟨"a", SrcKind.file⟩], [("a", DestEntry.link true false)]⟩

/-! ### Helper lemmas -/

theorem occupiedB_eq (fs : FS) (n : String) :
    (destExists fs n || destIsSymlink fs n) = (destLookup fs n).isSome := by
  unfold destExists destIsSymlink
  cases h : destLookup fs n with
  | none => simp
  | some e => cases e <;> simp

theorem includeEntry_inv {cfg : Config} {fs : FS} {sa : Bool} {ex : List String}
    {e : SrcEntry} {m : ModItem} (h : includeEntry cfg fs sa ex e = some m) :
    m.name = e.name ∧ m.installed = (destExists fs e.name || destIsSymlink fs e.name)
      ∧ m.is_dir = decide (e.kind = SrcKind.dir) ∧ e.kind ≠ SrcKind.dangling := by
  unfold includeEntry at h
  cases hk : e.kind <;> rw [hk] at h
  · by_cases hf : (sa || ex.contains (pyLower (pySuffix e.name))) = true
    · rw [if_pos hf] at h
      cases h
      simp
    · rw [if_neg hf] at h
      cases h
  · cases h
    simp
  · cases h

theorem mem_discover {cfg : Config} {fs : FS} {m : ModItem} :
    m ∈ discover_mods cfg fs ↔
      fs.srcDirExists = true ∧ ∃ e ∈ fs.src,
        includeEntry cfg fs (parse_extensions cfg.mod_extensions).1
          (parse_extensions cfg.mod_extensions).2 e = some m := by
  unfold discover_mods
  cases h : fs.srcDirExists with
  | false => simp [h]
  | true =>
    simp only [h, Bool.not_true, Bool.false_eq_true, if_false, List.mem_filterMap,
      List.mem_insertionSort, true_and]

theorem installed_eq_destLookup {cfg : Config} {fs : FS} {m : ModItem}
    (hm : m ∈ discover_mods cfg fs) :
    m.installed = (destLookup fs m.name).isSome := by
  obtain ⟨-, e, -, hinc⟩ := mem_discover.mp hm
  obtain ⟨hn, hi, -, -⟩ := includeEntry_inv hinc
  rw [hi, hn, occupiedB_eq]

theorem nodup_src_find {fs : FS} {e : SrcEntry}
    (hnd : (fs.src.map (fun x => x.name)).Nodup)
    (he : e ∈ fs.src) : srcFind fs e.name = some e := by
  unfold srcFind
  cases hf : fs.src.find? (fun x => x.name = e.name) with
  | none =>
    rw [List.find?_eq_none] at hf
    exact absurd (by simp) (hf e he)
  | some x =>
    have hx := List.find?_some hf
    have hxm := List.mem_of_find?_eq_some hf
    simp only [decide_eq_true_eq] at hx
    rw [List.inj_on_of_nodup_map hnd hxm he hx]

theorem srcPathExists_of_mem {cfg : Config} {fs : FS} {m : ModItem}
    (hnd : (fs.src.map (fun x => x.name)).Nodup)
    (hm : m ∈ discover_mods cfg fs) : srcPathExists fs m.name = true := by
  obtain ⟨hsd, e, hme, hinc⟩ := mem_discover.mp hm
  obtain ⟨hn, -, -, hk⟩ := includeEntry_inv hinc
  unfold srcPathExists
  rw [hsd, hn, nodup_src_find hnd hme]
  simpa using hk

theorem dictGet_inv {items : List ModItem} {nm : String} {m : ModItem}
    (h : dictGet items nm = some m) : m ∈ items ∧ m.name = nm := by
  unfold dictGet at h
  suffices H : ∀ (l : List ModItem) (acc : Option ModItem),
      l.foldl (fun acc x => if x.name = nm then some x else acc) acc = some m →
      (m ∈ l ∧ m.name = nm) ∨ acc = some m by
    rcases H items none h with h' | h'
    · exact h'
    · cases h'
  intro l
  induction l with
  | nil => intro acc h'; exact Or.inr h'
  | cons x xs ih =>
    intro acc h'
    rcases ih _ h' with ⟨hm', hn'⟩ | h'
    · exact Or.inl ⟨List.mem_cons_of_mem _ hm', hn'⟩
    · dsimp only at h'
      by_cases hx : x.name = nm
      · rw [if_pos hx] at h'
        cases h'
        exact Or.inl ⟨List.mem_cons_self _ _, hx⟩
      · rw [if_neg hx] at h'
        exact Or.inr h'

theorem charsLe_total : ∀ (a b : List Char), charsLe a b = true ∨ charsLe b a = true := by
  intro a
  induction a with
  | nil => intro b; exact Or.inl rfl
  | cons x xs ih =>
    intro b
    cases b with
    | nil => exact Or.inr rfl
    | cons y ys =>
      simp only [charsLe]
      rcases Nat.lt_trichotomy x.toNat y.toNat with h | h | h
      · exact Or.inl (by rw [if_pos h])
      · rcases ih ys with h2 | h2
        · left
          rw [if_neg (by omega), if_neg (by omega)]
          exact h2
        · right
          rw [if_neg (by omega), if_neg (by omega)]
          exact h2
      · exact Or.inr (by rw [if_pos h])

theorem charsLe_trans : ∀ {a b c : List Char},
    charsLe a b = true → charsLe b c = true → charsLe a c = true := by
  intro a
  induction a with
  | nil => intro b c _ _; rfl
  | cons x xs ih =>
    intro b c hab hbc
    cases b with
    | nil => simp [charsLe] at hab
    | cons y ys =>
      cases c with
      | nil => simp [charsLe] at hbc
      | cons z zs =>
        simp only [charsLe] at hab hbc ⊢
        rcases Nat.lt_trichotomy x.toNat y.toNat with h1 | h1 | h1
        · rcases Nat.lt_trichotomy y.toNat z.toNat with h2 | h2 | h2
          · rw [if_pos (Nat.lt_trans h1 h2)]
          · rw [if_pos (by omega)]
          · rw [if_neg (by omega), if_pos h2] at hbc
            exact absurd hbc (by simp)
        · rcases Nat.lt_trichotomy y.toNat z.toNat with h2 | h2 | h2
          · rw [if_pos (by omega)]
          · rw [if_neg (by omega), if_neg (by omega)]
            rw [if_neg (by omega), if_neg (by omega)] at hab
            rw [if_neg (by omega), if_neg (by omega)] at hbc
            exact ih hab hbc
          · rw [if_neg (by omega), if_pos h2] at hbc
            exact absurd hbc (by simp)
        · rw [if_neg (by omega), if_pos h1] at hab
          exact absurd hab (by simp)

theorem srcSortLe_total (a b : SrcEntry) : srcSortLe a b = true ∨ srcSortLe b a = true := by
  unfold srcSortLe
  by_cases h : isFileB a = isFileB b
  · rw [if_pos h, if_pos h.symm]
    exact charsLe_total _ _
  · rw [if_neg h, if_neg (Ne.symm h)]
    cases ha : isFileB a <;> cases hb : isFileB b <;> simp_all

theorem srcSortLe_trans {a b c : SrcEntry} (h1 : srcSortLe a b = true)
    (h2 : srcSortLe b c = true) : srcSortLe a c = true := by
  unfold srcSortLe at h1 h2 ⊢
  by_cases hab : isFileB a = isFileB b <;> by_cases hbc : isFileB b = isFileB c
  · rw [if_pos hab] at h1
    rw [if_pos hbc] at h2
    rw [if_pos (hab.trans hbc)]
    exact charsLe_trans h1 h2
  · rw [if_neg hbc] at h2
    rw [if_neg (fun hac => hbc (hab.symm.trans hac))]
    exact h2
  · rw [if_neg hab] at h1
    rw [if_neg (fun hac => hab (hac.trans (hbc.symm)))]
    exact hbc ▸ h1
  · rw [if_neg hab] at h1
    rw [if_neg hbc] at h2
    exact absurd (h1.trans h2.symm) hbc

/-- Evaluating `discover_mods` on an existing source directory gives the
filtered stable sort of the listing. -/
theorem discover_eq (cfg : Config) (fs : FS) (h : fs.srcDirExists = true) :
    discover_mods cfg fs =
      (fs.src.insertionSort (fun a b => srcSortLe a b = true)).filterMap
        (includeEntry cfg fs (parse_extensions cfg.mod_extensions).1
          (parse_extensions cfg.mod_extensions).2) := by
  unfold discover_mods
  rw [h]
  rfl

/-! ### C2: discover ordering -/

/-- Counterexample to claim C2 as stated: in the section-8 scenario (source
holding directory `ModA` and file `modb.esp`, filter `esp`), `discover_mods`
does not return the file before the directory. -/
theorem c2_order_cex :
    ¬ ((discover_mods scenCfg scenFS).map (fun m => (m.name, m.is_dir))
      = [("modb.esp", false), ("ModA", true)]) := by decide

/-- Claim C2 amended: the list returned by `discover_mods` is partitioned
with all directory entries before all file entries (the sort key
`(is_file, name.lower())` ascending puts `is_file = False` first), and
within each partition entries are sorted by case-insensitive name; in the
section-8 scenario `discover_mods` returns `[ModA (Directory),
modb.esp (File)]`. -/
theorem c2_discover_order :
    (∀ (cfg : Config) (fs : FS), (discover_mods cfg fs).Pairwise (fun a b =>
      (a.is_dir = false → b.is_dir = false)
      ∧ (a.is_dir = b.is_dir →
          charsLe (pyLower a.name).data (pyLower b.name).data = true)))
    ∧ (discover_mods scenCfg scenFS).map (fun m => (m.name, m.is_dir))
        = [("ModA", true), ("modb.esp", false)] := by
  constructor
  · intro cfg fs
    cases h : fs.srcDirExists with
    | false =>
      unfold discover_mods
      rw [h]
      simp
    | true =>
      rw [discover_eq cfg fs h]
      rw [List.pairwise_filterMap]
      have hs : (fs.src.insertionSort (fun a b => srcSortLe a b = true)).Sorted
          (fun a b => srcSortLe a b = true) := by
        haveI : IsTotal SrcEntry (fun a b => srcSortLe a b = true) :=
          ⟨fun a b => srcSortLe_total a b⟩
        haveI : IsTrans SrcEntry (fun a b => srcSortLe a b = true) :=
          ⟨fun _ _ _ h1 h2 => srcSortLe_trans h1 h2⟩
        exact List.sorted_insertionSort _ _
      refine hs.imp ?_
      intro a b hr m hm m' hm'
      have hinc := Option.mem_def.mp hm
      have hinc' := Option.mem_def.mp hm'
      obtain ⟨hn, -, hd, hk⟩ := includeEntry_inv hinc
      obtain ⟨hn', -, hd', hk'⟩ := includeEntry_inv hinc'
      unfold srcSortLe at hr
      constructor
      · intro hdir
        rw [hdir] at hd
        have haf : isFileB a = true := by
          unfold isFileB
          cases ka : a.kind <;> simp_all
        by_cases hF : isFileB a = isFileB b
        · have hbf : isFileB b = true := hF ▸ haf
          unfold isFileB at hbf
          rw [hd']
          cases kb : b.kind <;> simp_all
        · rw [if_neg hF] at hr
          exact absurd (haf.trans hr.symm) hF
      · intro hde
        have hF : isFileB a = isFileB b := by
          rw [hde] at hd
          unfold isFileB
          cases ka : a.kind <;> cases kb : b.kind <;> simp_all
        rw [if_pos hF] at hr
        rw [hn, hn']
        exact hr
  · decide

/-- Witness for C2 amended at the concrete scenario filesystem. -/
theorem c2_discover_order_witness :
    (discover_mods scenCfg scenFS).Pairwise (fun a b =>
      (a.is_dir = false → b.is_dir = false)
      ∧ (a.is_dir = b.is_dir →
          charsLe (pyLower a.name).data (pyLower b.name).data = true)) :=
  c2_discover_order.1 scenCfg scenFS

/-! ### C1: derived state of discovered entries, and list_broken_links -/

/-- Claim C1: for every entry produced by `discover_mods`, the derived state
is Installed-or-Broken exactly when a filesystem entry (a dangling link
included) sits at `destDir/name`, Broken exactly when additionally the
source path does not exist, and NotInstalled exactly when nothing sits at
`destDir/name`; and `list_broken_links` is exactly the discovered entries
whose derived state is Broken. -/
theorem c1_state_derivation (cfg : Config) (fs : FS) :
    (∀ m ∈ discover_mods cfg fs,
      ((modState fs m = ModState.installed ∨ modState fs m = ModState.broken) ↔
        (destLookup fs m.name).isSome = true)
      ∧ (modState fs m = ModState.broken ↔
        ((destLookup fs m.name).isSome = true ∧ srcPathExists fs m.name = false))
      ∧ (modState fs m = ModState.notInstalled ↔ destLookup fs m.name = none))
    ∧ list_broken_links cfg fs =
        (discover_mods cfg fs).filter (fun m => decide (modState fs m = ModState.broken)) := by
  constructor
  · intro m hm
    have hi := installed_eq_destLookup hm
    unfold modState
    cases hL : destLookup fs m.name with
    | none =>
      rw [hL] at hi
      simp only [Option.isSome_none] at hi
      rw [hi]
      simp
    | some e =>
      rw [hL] at hi
      simp only [Option.isSome_some] at hi
      rw [hi]
      cases hs : srcPathExists fs m.name <;> simp [hs]
  · unfold list_broken_links
    apply List.filter_congr
    intro m _
    unfold modState
    cases hI : m.installed <;> cases hs : srcPathExists fs m.name <;> simp [hs]

/-- Witness for C1: the installed (healthy-link) mod of a concrete
filesystem is discovered with Installed-or-Broken state matching existence
at its destination. -/
theorem c1_state_derivation_witness :
    ModItem.mk "a" "/s/a" "/d/a" false true ∈ discover_mods plainCfg oneModInstalledFS
    ∧ ((modState oneModInstalledFS (ModItem.mk "a" "/s/a" "/d/a" false true) = ModState.installed
        ∨ modState oneModInstalledFS (ModItem.mk "a" "/s/a" "/d/a" false true) = ModState.broken) ↔
      (destLookup oneModInstalledFS "a").isSome = true) :=
  ⟨by decide,
    ((c1_state_derivation plainCfg oneModInstalledFS).1 _ (by decide)).1⟩

/-! ### C8: preset save -/

/-- Counterexample to claim C8 as stated: with one available mod and nothing
installed, `save_preset_from_installed` fails for a non-I/O reason. -/
theorem c8_save_cex :
    save_preset_from_installed plainCfg oneModFS [] "p"
      = ((false, "No installed mods to save"), []) := by decide

theorem presetsGet_presetsSet_same (ps : PresetStore) (name : String) (v : List String) :
    presetsGet (presetsSet ps name v) name = v := by
  unfold presetsSet
  by_cases hA : ps.any (fun kv => kv.1 = name) = true
  · rw [if_pos hA]
    unfold presetsGet
    induction ps with
    | nil => simp at hA
    | cons kv rest ih =>
      by_cases hk : kv.1 = name
      · simp only [List.map_cons, if_pos hk]
        rw [List.find?_cons_of_pos _ (by simp)]
      · simp only [List.any_cons, Bool.or_eq_true, decide_eq_true_eq] at hA
        rcases hA with hA | hA
        · exact absurd hA hk
        · simp only [List.map_cons, if_neg hk]
          rw [List.find?_cons_of_neg _ (by simpa using hk)]
          exact ih hA
  · rw [if_neg hA]
    unfold presetsGet
    rw [List.find?_append]
    have h1 : ps.find? (fun kv => kv.1 = name) = none := by
      rw [List.find?_eq_none]
      intro kv hkv
      simp only [Bool.not_eq_true, decide_eq_false_iff_not]
      intro hk
      exact hA (List.any_eq_true.mpr ⟨kv, hkv, by simpa using hk⟩)
    rw [h1]
    simp [List.find?]

theorem presetsGet_presetsSet_other (ps : PresetStore) (name nm : String)
    (v : List String) (hne : nm ≠ name) :
    presetsGet (presetsSet ps name v) nm = presetsGet ps nm := by
  unfold presetsSet
  by_cases hA : ps.any (fun kv => kv.1 = name) = true
  · rw [if_pos hA]
    unfold presetsGet
    clear hA
    induction ps with
    | nil => simp
    | cons kv rest ih =>
      by_cases hk : kv.1 = name
      · simp only [List.map_cons, if_pos hk]
        rw [List.find?_cons_of_neg _ (by simpa using Ne.symm hne),
          List.find?_cons_of_neg _ (by
            simp only [decide_eq_true_eq]
            intro h
            exact hne (h.symm.trans hk))]
        exact ih
      · simp only [List.map_cons, if_neg hk]
        by_cases hq : kv.1 = nm
        · rw [List.find?_cons_of_pos _ (by simpa using hq),
            List.find?_cons_of_pos _ (by simpa using hq)]
        · rw [List.find?_cons_of_neg _ (by simpa using hq),
            List.find?_cons_of_neg _ (by simpa using hq)]
          exact ih
  · rw [if_neg hA]
    unfold presetsGet
    rw [List.find?_append]
    cases h1 : ps.find? (fun kv => kv.1 = nm) with
    | none => simp [List.find?, Ne.symm hne]
    | some kv => simp

/-- Claim C8 amended: `save_preset_from_installed` overwrites any existing
preset of the same name with the names of the currently installed mods
(leaving other presets unchanged) and succeeds whenever at least one mod is
installed; when no mod is installed it fails with the non-I/O failure
`No installed mods to save` and stores nothing. -/
theorem c8_save_behavior (cfg : Config) (fs : FS) (ps : PresetStore) (name : String) :
    (list_installed_mods cfg fs = [] →
      save_preset_from_installed cfg fs ps name = ((false, "No installed mods to save"), ps))
    ∧ (list_installed_mods cfg fs ≠ [] →
      save_preset_from_installed cfg fs ps name
        = ((true, "Preset " ++ name ++ " saved"),
            presetsSet ps name ((list_installed_mods cfg fs).map (fun m => m.name))))
    ∧ (∀ v, presetsGet (presetsSet ps name v) name = v)
    ∧ (∀ v nm, nm ≠ name → presetsGet (presetsSet ps name v) nm = presetsGet ps nm) := by
  refine ⟨fun h => ?_, fun h => ?_, fun v => presetsGet_presetsSet_same ps name v,
    fun v nm hne => presetsGet_presetsSet_other ps name nm v hne⟩
  · unfold save_preset_from_installed
    rw [if_pos (by simpa [List.isEmpty_iff] using h)]
  · unfold save_preset_from_installed
    rw [if_neg (by simpa [List.isEmpty_iff] using h)]

/-- Witness for C8 amended: saving over a concrete filesystem with one
installed mod succeeds and stores its name. -/
theorem c8_save_behavior_witness :
    list_installed_mods plainCfg oneModInstalledFS ≠ []
    ∧ save_preset_from_installed plainCfg oneModInstalledFS [] "p"
        = ((true, "Preset p saved"),
            presetsSet [] "p" ((list_installed_mods plainCfg oneModInstalledFS).map (fun m => m.name))) :=
  ⟨by decide, (c8_save_behavior plainCfg oneModInstalledFS [] "p").2.1 (by decide)⟩

/-! ### C9: discover on an absent or empty source directory -/

/-- Claim C9: for every configuration whose source directory does not exist
(or is empty), `discover_mods` returns the empty list; being a total Lean
function it signals no error. -/
theorem c9_discover_empty (cfg : Config) (fs : FS) :
    (fs.srcDirExists = false → discover_mods cfg fs = [])
    ∧ (fs.src = [] → discover_mods cfg fs = []) := by
  constructor
  · intro h
    unfold discover_mods
    rw [h]
    simp
  · intro h
    unfold discover_mods
    rw [h]
    cases fs.srcDirExists <;> simp [List.insertionSort]

/-- Witness for C9 at a concrete absent-source and a concrete empty-source
filesystem. -/
theorem c9_discover_empty_witness :
    ((FS.mk false [⟨"a", SrcKind.file⟩] []).srcDirExists = false
        ∧ discover_mods plainCfg (FS.mk false [⟨"a", SrcKind.file⟩] []) = [])
    ∧ ((FS.mk true [] []).src = [] ∧ discover_mods plainCfg (FS.mk true [] []) = []) :=
  ⟨⟨rfl, (c9_discover_empty plainCfg _).1 rfl⟩, ⟨rfl, (c9_discover_empty plainCfg _).2 rfl⟩⟩

/-! ### C6: mklink precondition order -/

/-- Claim C6: `mklink` fails `AlreadyExists` whenever something (including a
dangling link) already sits at the destination — leaving the filesystem
unchanged — and only otherwise fails `SourceMissing` when the source does not
exist; in particular when both conditions hold the `AlreadyExists` failure is
the one reported. -/
theorem c6_mklink_order (cfg : Config) (fs : FS) (name : String) :
    ((destExists fs name || destIsSymlink fs name) = true →
      mklink cfg fs name = ((false, "Target already exists: " ++ destPathStr cfg name), fs))
    ∧ ((destExists fs name || destIsSymlink fs name) = false → srcPathExists fs name = false →
      mklink cfg fs name = ((false, "Source not found: " ++ srcPathStr cfg name), fs))
    ∧ ((destExists fs name || destIsSymlink fs name) = true ∧ srcPathExists fs name = false →
      (mklink cfg fs name).1 = (false, "Target already exists: " ++ destPathStr cfg name)) := by
  refine ⟨fun h => ?_, fun h hs => ?_, fun ⟨h, _⟩ => ?_⟩
  · unfold mklink
    rw [if_pos h]
  · unfold mklink
    rw [if_neg (by simp [h]), if_pos (by simp [hs])]
  · unfold mklink
    rw [if_pos h]

/-- Witness for C6: occupied destination and missing source together report
`AlreadyExists`. -/
theorem c6_mklink_order_witness :
    ((destExists (FS.mk true [] [("a", DestEntry.realFile)]) "a"
        || destIsSymlink (FS.mk true [] [("a", DestEntry.realFile)]) "a") = true
      ∧ srcPathExists (FS.mk true [] [("a", DestEntry.realFile)]) "a" = false)
    ∧ (mklink plainCfg (FS.mk true [] [("a", DestEntry.realFile)]) "a").1
        = (false, "Target already exists: /d/a") :=
  ⟨⟨by decide, by decide⟩,
    (c6_mklink_order plainCfg (FS.mk true [] [("a", DestEntry.realFile)]) "a").2.2
      ⟨by decide, by decide⟩⟩

/-! ### C7: unlink_path case analysis -/

/-- Claim C7: `unlink_path` fails `AlreadyRemoved` exactly when nothing at
all (not even a dangling link) sits at the destination; on a real non-link
directory it attempts only an empty-directory removal, failing
`NotALinkOrNotEmpty` and leaving the filesystem untouched when the directory
is nonempty; on anything else (a file, or a link of either kind, dangling
included) it removes the single entry and succeeds. -/
theorem c7_unlink_cases (fs : FS) (name : String) :
    (unlink_path fs name = ((false, "Already removed"), fs) ↔ destLookup fs name = none)
    ∧ (∀ emp, destLookup fs name = some (DestEntry.realDir emp) →
        (emp = true → unlink_path fs name = ((true, "OK"), destRemove fs name))
        ∧ (emp = false → unlink_path fs name = ((false, "Not a link or not empty"), fs)))
    ∧ (destLookup fs name = some DestEntry.realFile →
        unlink_path fs name = ((true, "OK"), destRemove fs name))
    ∧ (∀ t d, destLookup fs name = some (DestEntry.link t d) →
        unlink_path fs name = ((true, "OK"), destRemove fs name)) := by
  refine ⟨?_, fun emp h => ⟨fun he => ?_, fun he => ?_⟩, fun h => ?_, fun t d h => ?_⟩
  · constructor
    · intro h
      cases hl : destLookup fs name with
      | none => rfl
      | some e =>
        unfold unlink_path destExists destIsSymlink destIsDir at h
        rw [hl] at h
        cases e with
        | realFile => simp at h
        | realDir emp =>
          cases emp <;> simp_all
        | link t d =>
          cases t <;> cases d <;> simp_all
    · intro h
      unfold unlink_path destExists destIsSymlink
      rw [h]
      simp
  · subst he
    unfold unlink_path destExists destIsSymlink destIsDir
    rw [h]
    simp
  · subst he
    unfold unlink_path destExists destIsSymlink destIsDir
    rw [h]
    simp
  · unfold unlink_path destExists destIsSymlink destIsDir
    rw [h]
    simp
  · unfold unlink_path destExists destIsSymlink destIsDir
    rw [h]
    cases t <;> cases d <;> simp

/-- Witness for C7: removing a nonempty real directory fails and leaves the
filesystem untouched. -/
theorem c7_unlink_cases_witness :
    destLookup (FS.mk true [] [("a", DestEntry.realDir false)]) "a"
        = some (DestEntry.realDir false)
    ∧ unlink_path (FS.mk true [] [("a", DestEntry.realDir false)]) "a"
        = ((false, "Not a link or not empty"), FS.mk true [] [("a", DestEntry.realDir false)]) :=
  ⟨by decide,
    ((c7_unlink_cases (FS.mk true [] [("a", DestEntry.realDir false)]) "a").2.1 false
      (by decide)).2 rfl⟩

theorem installed_iff_modState {cfg : Config} {fs : FS} {m : ModItem}
    (hnd : (fs.src.map (fun e => e.name)).Nodup)
    (hm : m ∈ discover_mods cfg fs) :
    m.installed = true ↔ modState fs m = ModState.installed := by
  unfold modState
  rw [srcPathExists_of_mem hnd hm]
  cases hI : m.installed <;> simp

/-! ### C5: extension filtering -/

/-- Claim C5: with an empty/unset filter every file and every directory of
the source listing is discovered; with a set filter a file is discovered iff
its lowercased suffix is in the parsed (lowercased, leading-dot-normalized)
filter, while directories are always discovered; concretely, with filter
`.esp` the directory `foo.bar` and the files `x.esp` and `x.ESP` are
included and `x.txt` is excluded. -/
theorem c5_extension_filter (cfg : Config) (fs : FS)
    (hnd : (fs.src.map (fun e => e.name)).Nodup)
    (hex : fs.srcDirExists = true) :
    (∀ e ∈ fs.src, e.kind = SrcKind.dir →
      ∃ m ∈ discover_mods cfg fs, m.name = e.name ∧ m.is_dir = true)
    ∧ (∀ e ∈ fs.src, e.kind = SrcKind.file →
      ((∃ m ∈ discover_mods cfg fs, m.name = e.name) ↔
        ((parse_extensions cfg.mod_extensions).1 = true
          ∨ (parse_extensions cfg.mod_extensions).2.contains
              (pyLower (pySuffix e.name)) = true)))
    ∧ (discover_mods espCfg espFS).map (fun m => m.name)
        = ["foo.bar", "x.esp", "x.ESP"] := by
  refine ⟨fun e he hk => ?_, fun e he hk => ?_, by decide⟩
  · refine ⟨⟨e.name, srcPathStr cfg e.name, destPathStr cfg e.name, true,
      destExists fs e.name || destIsSymlink fs e.name⟩, ?_, rfl, rfl⟩
    apply mem_discover.mpr
    refine ⟨hex, e, he, ?_⟩
    unfold includeEntry
    rw [hk]
  · constructor
    · rintro ⟨m, hm, hname⟩
      obtain ⟨-, e', he', hinc⟩ := mem_discover.mp hm
      obtain ⟨hn', -, -, -⟩ := includeEntry_inv hinc
      have heq : e' = e := List.inj_on_of_nodup_map hnd he' he (by rw [← hn', hname])
      subst heq
      unfold includeEntry at hinc
      rw [hk] at hinc
      by_cases hc : ((parse_extensions cfg.mod_extensions).1
          || (parse_extensions cfg.mod_extensions).2.contains
              (pyLower (pySuffix e'.name))) = true
      · simp only [Bool.or_eq_true] at hc
        exact hc
      · rw [if_neg hc] at hinc
        cases hinc
    · intro hc
      have hc' : ((parse_extensions cfg.mod_extensions).1
          || (parse_extensions cfg.mod_extensions).2.contains
              (pyLower (pySuffix e.name))) = true := by
        simp only [Bool.or_eq_true]
        exact hc
      refine ⟨⟨e.name, srcPathStr cfg e.name, destPathStr cfg e.name, false,
        destExists fs e.name || destIsSymlink fs e.name⟩, ?_, rfl⟩
      apply mem_discover.mpr
      refine ⟨hex, e, he, ?_⟩
      unfold includeEntry
      rw [hk, if_pos hc']

/-- Witness for C5 at the concrete `.esp` filesystem: the directory
`foo.bar` is discovered, and the file `x.txt` is discovered iff its suffix
is in the filter (it is not). -/
theorem c5_extension_filter_witness :
    (SrcEntry.mk "foo.bar" SrcKind.dir ∈ espFS.src
      ∧ ∃ m ∈ discover_mods espCfg espFS, m.name = "foo.bar" ∧ m.is_dir = true)
    ∧ ((∃ m ∈ discover_mods espCfg espFS, m.name = "x.txt") ↔
        ((parse_extensions espCfg.mod_extensions).1 = true
          ∨ (parse_extensions espCfg.mod_extensions).2.contains
              (pyLower (pySuffix "x.txt")) = true)) :=
  ⟨⟨by decide,
    (c5_extension_filter espCfg espFS (by decide) (by decide)).1
      ⟨"foo.bar", SrcKind.dir⟩ (by decide) rfl⟩,
    (c5_extension_filter espCfg espFS (by decide) (by decide)).2.1
      ⟨"x.txt", SrcKind.file⟩ (by decide) rfl⟩

/-! ### C3: preset toggle decision -/

/-- Claim C3: the preset toggle reverts the whole selection iff the selection
is nonempty and every member name resolves to a discovered entry in state
Installed (not Broken); otherwise — in particular for an empty selection —
it applies the whole selection. -/
theorem c3_toggle_decision (cfg : Config) (fs : FS) (ps : PresetStore) (name : String)
    (hnd : (fs.src.map (fun e => e.name)).Nodup) :
    ((togglePreset cfg fs ps name).1 = true ↔
      (presetsGet ps name ≠ [] ∧ ∀ nm ∈ presetsGet ps name,
        ∃ m ∈ discover_mods cfg fs, m.name = nm ∧ modState fs m = ModState.installed))
    ∧ ((togglePreset cfg fs ps name).1 = true →
        (togglePreset cfg fs ps name).2 = deactivate_preset cfg fs ps name)
    ∧ ((togglePreset cfg fs ps name).1 = false →
        (togglePreset cfg fs ps name).2 = apply_preset cfg fs ps name) := by
  have hbranch : (togglePreset cfg fs ps name).1 = presetAllOn cfg fs ps name := by
    unfold togglePreset
    cases h : presetAllOn cfg fs ps name <;> simp [h]
  refine ⟨?_, fun h => ?_, fun h => ?_⟩
  · rw [hbranch]
    unfold presetAllOn
    simp only [Bool.and_eq_true, Bool.not_eq_true', List.isEmpty_eq_false_iff_exists_mem,
      List.all_eq_true]
    constructor
    · rintro ⟨⟨x, hx⟩, hall⟩
      refine ⟨fun hnil => by simp [hnil] at hx, fun nm hnm => ?_⟩
      have hmem : nm ∈ installedNames cfg fs := by
        have := hall nm hnm
        simpa using this
      unfold installedNames at hmem
      rw [List.mem_map] at hmem
      obtain ⟨m, hm, hname⟩ := hmem
      rw [List.mem_filter] at hm
      exact ⟨m, hm.1, hname, (installed_iff_modState hnd hm.1).mp hm.2⟩
    · rintro ⟨hne, hall⟩
      refine ⟨?_, fun nm hnm => ?_⟩
      · cases hmods : presetsGet ps name with
        | nil => exact absurd hmods hne
        | cons x xs => exact ⟨x, List.mem_cons_self _ _⟩
      · obtain ⟨m, hm, hname, hst⟩ := hall nm hnm
        have : nm ∈ installedNames cfg fs := by
          unfold installedNames
          rw [List.mem_map]
          exact ⟨m, List.mem_filter.mpr ⟨hm, (installed_iff_modState hnd hm).mpr hst⟩, hname⟩
        simpa using this
  · rw [hbranch] at h
    unfold togglePreset
    rw [if_pos h]
  · rw [hbranch] at h
    unfold togglePreset
    rw [if_neg (by simp [h])]

/-- Witness for C3: with one installed mod and the preset listing exactly it,
the toggle reverts; the hypotheses are discharged at a concrete store. -/
theorem c3_toggle_decision_witness :
    (togglePreset plainCfg oneModInstalledFS [("p", ["a"])] "p").1 = true :=
  ((c3_toggle_decision plainCfg oneModInstalledFS [("p", ["a"])] "p" (by decide)).1).mpr
    ⟨by decide, by decide⟩

/-! ### C4: per-item behavior of apply_preset -/

theorem applyStep_none {cfg : Config} {catalog : List ModItem} {st : BatchSt}
    {nm : String} (h : dictGet catalog nm = none) :
    applyStep cfg catalog st nm
      = { st with msgs := st.msgs ++ ["Skipped: " ++ nm ++ " (not in source)"] } := by
  unfold applyStep
  rw [h]

theorem applyStep_installed {cfg : Config} {catalog : List ModItem} {st : BatchSt}
    {nm : String} {m : ModItem} (h : dictGet catalog nm = some m)
    (hI : m.installed = true) : applyStep cfg catalog st nm = st := by
  unfold applyStep
  rw [h]
  simp [hI]

theorem applyStep_notInstalled {cfg : Config} {catalog : List ModItem} {st : BatchSt}
    {nm : String} {m : ModItem} (h : dictGet catalog nm = some m)
    (hI : m.installed = false) :
    applyStep cfg catalog st nm
      = { fs := (mklink cfg st.fs m.name).2
          ok := if (mklink cfg st.fs m.name).1.1 then st.ok + 1 else st.ok
          fail := if (mklink cfg st.fs m.name).1.1 then st.fail else st.fail + 1
          msgs := st.msgs ++ [nm ++ ": "
            ++ (if (mklink cfg st.fs m.name).1.1 then "OK" else "ERR")
            ++ " (" ++ (mklink cfg st.fs m.name).1.2 ++ ")"] } := by
  unfold applyStep
  rw [h]
  simp [hI]

theorem modState_in_or_broken {fs : FS} {m : ModItem} :
    (modState fs m = ModState.installed ∨ modState fs m = ModState.broken) ↔
      m.installed = true := by
  unfold modState
  cases hI : m.installed <;> cases hs : srcPathExists fs m.name <;> simp [hs]

theorem modState_notIn {fs : FS} {m : ModItem} :
    modState fs m = ModState.notInstalled ↔ m.installed = false := by
  unfold modState
  cases hI : m.installed <;> cases hs : srcPathExists fs m.name <;> simp [hs]

/-- Claim C4: per requested name, against the one catalog snapshot: a name
absent from the catalog logs `Skipped (not in source)` and changes no count;
a name whose entry is already Installed or Broken is skipped silently (no
log entry, no count change) — so a second `apply_preset` on an
already-installed single-member preset returns zero counts, an empty log
and an unchanged filesystem; any other name has `mklink` invoked and its
outcome logged and counted. -/
theorem c4_apply_per_item (cfg : Config) (fs : FS) (ps : PresetStore) :
    (∀ (st : BatchSt) (nm : String), dictGet (discover_mods cfg fs) nm = none →
      applyStep cfg (discover_mods cfg fs) st nm
        = { st with msgs := st.msgs ++ ["Skipped: " ++ nm ++ " (not in source)"] })
    ∧ (∀ (st : BatchSt) (nm : String) (m : ModItem),
        dictGet (discover_mods cfg fs) nm = some m →
        (modState fs m = ModState.installed ∨ modState fs m = ModState.broken) →
        applyStep cfg (discover_mods cfg fs) st nm = st)
    ∧ (∀ (st : BatchSt) (nm : String) (m : ModItem),
        dictGet (discover_mods cfg fs) nm = some m →
        modState fs m = ModState.notInstalled →
        applyStep cfg (discover_mods cfg fs) st nm
          = { fs := (mklink cfg st.fs m.name).2
              ok := if (mklink cfg st.fs m.name).1.1 then st.ok + 1 else st.ok
              fail := if (mklink cfg st.fs m.name).1.1 then st.fail else st.fail + 1
              msgs := st.msgs ++ [nm ++ ": "
                ++ (if (mklink cfg st.fs m.name).1.1 then "OK" else "ERR")
                ++ " (" ++ (mklink cfg st.fs m.name).1.2 ++ ")"] })
    ∧ (∀ (pname nm : String) (m : ModItem), presetsGet ps pname = [nm] →
        dictGet (discover_mods cfg fs) nm = some m →
        (modState fs m = ModState.installed ∨ modState fs m = ModState.broken) →
        apply_preset cfg fs ps pname = ⟨fs, 0, 0, []⟩) := by
  refine ⟨fun st nm h => applyStep_none h,
    fun st nm m h hst => applyStep_installed h (modState_in_or_broken.mp hst),
    fun st nm m h hst => applyStep_notInstalled h (modState_notIn.mp hst),
    fun pname nm m hsel h hst => ?_⟩
  unfold apply_preset
  rw [hsel]
  simp only [List.foldl]
  exact applyStep_installed h (modState_in_or_broken.mp hst)

/-- Witness for C4: over a concrete filesystem with mod `a` installed, a
single-member preset naming `a` is applied with zero counts, no log and no
filesystem change. -/
theorem c4_apply_per_item_witness :
    presetsGet [("p", ["a"])] "p" = ["a"]
    ∧ dictGet (discover_mods plainCfg oneModInstalledFS) "a"
        = some ⟨"a", "/s/a", "/d/a", false, true⟩
    ∧ (modState oneModInstalledFS ⟨"a", "/s/a", "/d/a", false, true⟩ = ModState.installed
        ∨ modState oneModInstalledFS ⟨"a", "/s/a", "/d/a", false, true⟩ = ModState.broken)
    ∧ apply_preset plainCfg oneModInstalledFS [("p", ["a"])] "p"
        = ⟨oneModInstalledFS, 0, 0, []⟩ :=
  ⟨by decide, by decide, by decide,
    (c4_apply_per_item plainCfg oneModInstalledFS [("p", ["a"])]).2.2.2 "p" "a"
      ⟨"a", "/s/a", "/d/a", false, true⟩ (by decide) (by decide) (by decide)⟩

/-! ### C10: duplicate member names inflate the failure count -/

/-- Claim C10: the catalog snapshot is not refreshed inside one
`apply_preset` batch, so a preset listing the same not-installed name twice
attempts it twice: the first attempt creates the link and counts one
success, the second fails `AlreadyExists` and counts one failure. -/
theorem c10_duplicate_name (cfg : Config) (fs : FS) (ps : PresetStore)
    (pname nm : String) (m : ModItem)
    (hnd : (fs.src.map (fun e => e.name)).Nodup)
    (hsel : presetsGet ps pname = [nm, nm])
    (hm : dictGet (discover_mods cfg fs) nm = some m)
    (hni : m.installed = false) :
    apply_preset cfg fs ps pname
      = ⟨{ fs with dest := fs.dest ++ [(nm, DestEntry.link true (srcIsDir fs nm))] }, 1, 1,
          [nm ++ ": " ++ "OK" ++ " (" ++ "OK" ++ ")",
           nm ++ ": " ++ "ERR" ++ " ("
             ++ ("Target already exists: " ++ destPathStr cfg nm) ++ ")"]⟩ := by
  obtain ⟨hmem, hname⟩ := dictGet_inv hm
  have hsp : srcPathExists fs nm = true := hname ▸ srcPathExists_of_mem hnd hmem
  have hlook : destLookup fs nm = none := by
    have hio := installed_eq_destLookup hmem
    rw [hni] at hio
    cases h : destLookup fs m.name with
    | none => exact hname ▸ h
    | some e => rw [h] at hio; simp at hio
  have hocc : (destExists fs nm || destIsSymlink fs nm) = false := by
    rw [occupiedB_eq, hlook]
    rfl
  have hmk1 : mklink cfg fs nm
      = ((true, "OK"), { fs with dest := fs.dest ++ [(nm, DestEntry.link true (srcIsDir fs nm))] }) := by
    unfold mklink
    rw [if_neg (by simp [hocc]), if_neg (by simp [hsp])]
  have hfind1 : fs.dest.find? (fun kv => kv.1 = nm) = none := by
    unfold destLookup at hlook
    cases h : fs.dest.find? (fun kv => kv.1 = nm) with
    | none => rfl
    | some kv => rw [h] at hlook; simp at hlook
  have hlook1 : destLookup { fs with dest := fs.dest ++ [(nm, DestEntry.link true (srcIsDir fs nm))] } nm
      = some (DestEntry.link true (srcIsDir fs nm)) := by
    unfold destLookup
    simp only [List.find?_append, hfind1]
    simp [List.find?]
  have hmk2 : mklink cfg { fs with dest := fs.dest ++ [(nm, DestEntry.link true (srcIsDir fs nm))] } nm
      = ((false, "Target already exists: " ++ destPathStr cfg nm),
          { fs with dest := fs.dest ++ [(nm, DestEntry.link true (srcIsDir fs nm))] }) := by
    unfold mklink
    rw [if_pos (by unfold destIsSymlink; rw [hlook1]; simp)]
  unfold apply_preset
  rw [hsel]
  simp only [List.foldl]
  rw [applyStep_notInstalled hm hni]
  simp only [hname, hmk1]
  rw [applyStep_notInstalled hm hni]
  simp only [hname, hmk2]
  simp [hmk1, hmk2]

/-- Witness for C10 over a concrete filesystem and a duplicate-member
preset. -/
theorem c10_duplicate_name_witness :
    presetsGet [("p", ["a", "a"])] "p" = ["a", "a"]
    ∧ dictGet (discover_mods plainCfg oneModFS) "a" = some ⟨"a", "/s/a", "/d/a", false, false⟩
    ∧ apply_preset plainCfg oneModFS [("p", ["a", "a"])] "p"
        = ⟨{ oneModFS with dest := oneModFS.dest ++ [("a", DestEntry.link true (srcIsDir oneModFS "a"))] },
            1, 1,
            ["a" ++ ": " ++ "OK" ++ " (" ++ "OK" ++ ")",
             "a" ++ ": " ++ "ERR" ++ " ("
               ++ ("Target already exists: " ++ destPathStr plainCfg "a") ++ ")"]⟩ :=
  ⟨by decide, by decide,
    c10_duplicate_name plainCfg oneModFS [("p", ["a", "a"])] "p" "a"
      ⟨"a", "/s/a", "/d/a", false, false⟩ (by decide) (by decide) (by decide) (by decide)⟩

end ModMgr
